import Mathlib

/-!
Shallow embedding of the core of the `rgame` engine repository:
the entity/component store (`src/ecs.rs`), the input edge tracker
(`src/input.rs`), the clock (`src/time.rs`) and the frame state machine of
the orchestrating event loop (`src/engine.rs`).

Modelling conventions:
* `std::collections::HashMap<K, V>` is modelled as an association list
  `List (Nat × V)` whose operations mirror the map API: `insert` replaces
  any existing binding of the key, `remove` deletes it, `get` is
  `List.lookup`.  The claims under study never depend on iteration order.
* `std::collections::HashSet<T>` is modelled as a `List Nat` with
  membership-guarded insertion and filtering removal.
* `u64` entity ids are modelled as `Nat`.  The allocation counter is only
  ever incremented by one per creation; a debug build panics on the
  increment overflowing before a wrapped id could be returned, so along
  every terminating trace the ideal counter is exact.
* `TypeId` / `Box<dyn Any>` type erasure is modelled by tagging every
  stored component value with the `Nat` code of its dynamic type;
  `downcast_ref::<T>` succeeds exactly when the stored tag equals the
  requested tag.
* `std::time::Instant` and `Duration` are modelled as exact rationals
  (the code only ever stores, subtracts, accumulates, compares against one
  second and divides them); `f32` pointer coordinates and scroll amounts,
  on which the code performs no arithmetic at all, are modelled as `Int`.
-/

namespace RGame

/-- HashMap insert: bind `k` to `v`, replacing any existing binding. -/
def mapInsert {α : Type} (m : List (Nat × α)) (k : Nat) (v : α) : List (Nat × α) :=
  (k, v) :: m.filter (fun p => p.1 != k)

/-- HashMap remove: delete any binding of `k`. -/
def mapErase {α : Type} (m : List (Nat × α)) (k : Nat) : List (Nat × α) :=
  m.filter (fun p => p.1 != k)

/-- Number of bindings of key `k` (used to state the one-per-type invariant). -/
def countKey {α : Type} (m : List (Nat × α)) (k : Nat) : Nat :=
  (m.filter (fun p => p.1 == k)).length

/-- HashSet insert: add `k` when absent. -/
def setInsert (l : List Nat) (k : Nat) : List Nat :=
  if l.contains k then l else k :: l

/-- HashSet remove: drop `k`. -/
def setRemove (l : List Nat) (k : Nat) : List Nat :=
  l.filter (fun x => x != k)

/-- A `Box<dyn Any>`: a payload tagged with the `TypeId` of its dynamic type. -/
structure AnyBox where
  dynType : Nat
  payload : Nat
deriving DecidableEq, Repr

/-- `Entity` from `ecs.rs`: id, display name, active flag and the
type-indexed component map. -/
structure Entity where
  id : Nat
  name : String
  active : Bool
  components : List (Nat × AnyBox)
deriving DecidableEq, Repr

/-- `Entity::new`. -/
def Entity.new (id : Nat) (name : String) : Entity :=
  { id := id, name := name, active := true, components := [] }

/-- `Entity::set_active`. -/
def Entity.set_active (e : Entity) (active : Bool) : Entity :=
  { e with active := active }

/-- `Entity::add_component::<T>`: insert under `TypeId::of::<T>`, boxing the
value with its dynamic type. -/
def Entity.add_component (e : Entity) (ty : Nat) (v : Nat) : Entity :=
  { e with components := mapInsert e.components ty { dynType := ty, payload := v } }

/-- `Entity::get_component::<T>`: map lookup followed by a checked downcast. -/
def Entity.get_component (e : Entity) (ty : Nat) : Option Nat :=
  match List.lookup ty e.components with
  | none => none
  | some b => if b.dynType == ty then some b.payload else none

/-- `Entity::has_component::<T>`. -/
def Entity.has_component (e : Entity) (ty : Nat) : Bool :=
  (List.lookup ty e.components).isSome

/-- `Entity::remove_component::<T>`: returns whether a component was removed,
together with the updated entity. -/
def Entity.remove_component (e : Entity) (ty : Nat) : Bool × Entity :=
  ((List.lookup ty e.components).isSome,
   { e with components := mapErase e.components ty })

/-- Writing through `Entity::get_component_mut::<T>`: when the lookup and the
downcast succeed, the caller may overwrite the payload in place (the dynamic
type of the stored value cannot change through a `&mut T`). -/
def Entity.write_component (e : Entity) (ty : Nat) (v : Nat) : Entity :=
  { e with components :=
      e.components.map (fun p =>
        if p.1 == ty && p.2.dynType == ty then (p.1, { p.2 with payload := v }) else p) }

/-- `Scene` from `ecs.rs`. -/
structure Scene where
  entities : List (Nat × Entity)
  next_entity_id : Nat
  name : String
deriving DecidableEq, Repr

/-- `Scene::new` (the log line has no effect on state). -/
def Scene.new (name : String) : Scene :=
  { entities := [], next_entity_id := 0, name := name }

/-- `Scene::create_entity`: allocate the next id, bump the counter, insert a
fresh active entity, return the id. -/
def Scene.create_entity (s : Scene) (name : String) : Nat × Scene :=
  let id := s.next_entity_id
  (id, { s with next_entity_id := id + 1,
                entities := mapInsert s.entities id (Entity.new id name) })

/-- `Scene::get_entity`. -/
def Scene.get_entity (s : Scene) (id : Nat) : Option Entity :=
  List.lookup id s.entities

/-- `Scene::remove_entity`: returns whether the entity existed, with the
updated scene. -/
def Scene.remove_entity (s : Scene) (id : Nat) : Bool × Scene :=
  ((List.lookup id s.entities).isSome, { s with entities := mapErase s.entities id })

/-- `Scene::entity_count`. -/
def Scene.entity_count (s : Scene) : Nat :=
  s.entities.length

/-- `Scene::clear`: drop every entity and reset the id counter to zero. -/
def Scene.clear (s : Scene) : Scene :=
  { s with entities := [], next_entity_id := 0 }

/-- A sequence element for runs that use only `create_entity` and
`remove_entity` (no `clear`), as in the id-freshness claims. -/
inductive SceneOp where
  | create (name : String)
  | remove (id : Nat)
deriving DecidableEq, Repr

/-- Run a list of create/remove operations, collecting the ids returned by
the successive `create_entity` calls. -/
def runOps : List SceneOp → Scene → Scene × List Nat
  | [], s => (s, [])
  | SceneOp.create n :: ops, s =>
    let r := s.create_entity n
    let rest := runOps ops r.2
    (rest.1, r.1 :: rest.2)
  | SceneOp.remove i :: ops, s =>
    runOps ops (s.remove_entity i).2

/-- Number of `create` operations in a sequence. -/
def numCreates : List SceneOp → Nat
  | [] => 0
  | SceneOp.create _ :: ops => numCreates ops + 1
  | SceneOp.remove _ :: ops => numCreates ops

/-- The mutations a caller can perform on an `Entity` obtained through
`get_entity_mut` (the `id` field is private and has no setter). -/
inductive EntityOp where
  | set_active (b : Bool)
  | add_component (ty v : Nat)
  | remove_component (ty : Nat)
  | write_component (ty v : Nat)
deriving DecidableEq, Repr

/-- Apply one entity mutation. -/
def applyEntityOp (e : Entity) : EntityOp → Entity
  | EntityOp.set_active b => e.set_active b
  | EntityOp.add_component ty v => e.add_component ty v
  | EntityOp.remove_component ty => (e.remove_component ty).2
  | EntityOp.write_component ty v => e.write_component ty v

/-- Apply a sequence of entity mutations. -/
def runEntityOps (e : Entity) : List EntityOp → Entity
  | [] => e
  | op :: ops => runEntityOps (applyEntityOp e op) ops

/-- Every public operation on a `Scene`, including `clear` and in-place
entity mutation through `get_entity_mut`. -/
inductive FullOp where
  | create (name : String)
  | remove (id : Nat)
  | clear
  | mutate (id : Nat) (op : EntityOp)
deriving DecidableEq, Repr

/-- Apply one scene operation; `mutate` edits the entity under `id` in
place when `get_entity_mut` finds it, and does nothing otherwise. -/
def applyFullOp (s : Scene) : FullOp → Scene
  | FullOp.create n => (s.create_entity n).2
  | FullOp.remove i => (s.remove_entity i).2
  | FullOp.clear => s.clear
  | FullOp.mutate i op =>
    match List.lookup i s.entities with
    | none => s
    | some _ =>
      { s with entities :=
          s.entities.map (fun p => if p.1 == i then (p.1, applyEntityOp p.2 op) else p) }

/-- Apply a sequence of scene operations. -/
def runFullOps (s : Scene) : List FullOp → Scene
  | [] => s
  | op :: ops => runFullOps (applyFullOp s op) ops

/-- The key-to-entity correspondence invariant of the scene map. -/
def sceneInv (s : Scene) : Prop :=
  ∀ p ∈ s.entities, p.2.id = p.1

/-- `winit::event::ElementState`. -/
inductive ElementState where
  | Pressed
  | Released
deriving DecidableEq, Repr

/-- `InputManager` from `input.rs`.  Key codes and mouse buttons are `Nat`
tags; pointer coordinates and the scroll amount, never computed with, are
exact `Int`. -/
structure InputManager where
  keys_pressed : List Nat
  keys_just_pressed : List Nat
  keys_just_released : List Nat
  mouse_buttons_pressed : List Nat
  mouse_buttons_just_pressed : List Nat
  mouse_buttons_just_released : List Nat
  mouse_position : Int × Int
  mouse_delta : Int × Int
  scroll_delta : Int
deriving DecidableEq, Repr

/-- `InputManager::new`. -/
def InputManager.new : InputManager :=
  { keys_pressed := [], keys_just_pressed := [], keys_just_released := [],
    mouse_buttons_pressed := [], mouse_buttons_just_pressed := [],
    mouse_buttons_just_released := [],
    mouse_position := (0, 0), mouse_delta := (0, 0), scroll_delta := 0 }

/-- `InputManager::update`: clear both edge sets of each device and reset
motion and scroll deltas. -/
def InputManager.update (m : InputManager) : InputManager :=
  { m with keys_just_pressed := [], keys_just_released := [],
           mouse_buttons_just_pressed := [], mouse_buttons_just_released := [],
           mouse_delta := (0, 0), scroll_delta := 0 }

/-- `InputManager::handle_keyboard_input`, for events whose physical key is
a `PhysicalKey::Code` (the only case the code acts on). -/
def InputManager.handle_keyboard_input (m : InputManager) (key_code : Nat)
    (state : ElementState) : InputManager :=
  match state with
  | ElementState.Pressed =>
    let m1 :=
      if m.keys_pressed.contains key_code then m
      else { m with keys_just_pressed := setInsert m.keys_just_pressed key_code }
    { m1 with keys_pressed := setInsert m1.keys_pressed key_code }
  | ElementState.Released =>
    { m with keys_pressed := setRemove m.keys_pressed key_code,
             keys_just_released := setInsert m.keys_just_released key_code }

/-- `InputManager::handle_mouse_button`. -/
def InputManager.handle_mouse_button (m : InputManager) (button : Nat)
    (state : ElementState) : InputManager :=
  match state with
  | ElementState.Pressed =>
    let m1 :=
      if m.mouse_buttons_pressed.contains button then m
      else { m with mouse_buttons_just_pressed := setInsert m.mouse_buttons_just_pressed button }
    { m1 with mouse_buttons_pressed := setInsert m1.mouse_buttons_pressed button }
  | ElementState.Released =>
    { m with mouse_buttons_pressed := setRemove m.mouse_buttons_pressed button,
             mouse_buttons_just_released := setInsert m.mouse_buttons_just_released button }

/-- `InputManager::handle_mouse_motion`: the stored delta is overwritten. -/
def InputManager.handle_mouse_motion (m : InputManager) (delta : Int × Int) : InputManager :=
  { m with mouse_delta := delta }

/-- `InputManager::set_mouse_position`. -/
def InputManager.set_mouse_position (m : InputManager) (position : Int × Int) : InputManager :=
  { m with mouse_position := position }

/-- `InputManager::handle_scroll`: the stored delta is overwritten. -/
def InputManager.handle_scroll (m : InputManager) (delta : Int) : InputManager :=
  { m with scroll_delta := delta }

/-- `InputManager::key_pressed`. -/
def InputManager.key_pressed (m : InputManager) (key : Nat) : Bool :=
  m.keys_pressed.contains key

/-- `InputManager::key_just_pressed`. -/
def InputManager.key_just_pressed (m : InputManager) (key : Nat) : Bool :=
  m.keys_just_pressed.contains key

/-- `InputManager::key_just_released`. -/
def InputManager.key_just_released (m : InputManager) (key : Nat) : Bool :=
  m.keys_just_released.contains key

/-- `TimeManager` from `time.rs`, with instants and durations as exact
rationals (seconds). -/
structure TimeManager where
  start_time : Rat
  last_frame : Rat
  delta_time : Rat
  frame_count : Nat
  fps : Rat
  fps_timer : Rat
  fps_frame_count : Nat
deriving DecidableEq, Repr

/-- `TimeManager::new`, anchored at the sampled instant `now`. -/
def TimeManager.new (now : Rat) : TimeManager :=
  { start_time := now, last_frame := now, delta_time := 0,
    frame_count := 0, fps := 0, fps_timer := 0, fps_frame_count := 0 }

/-- `TimeManager::update`, with the sampled instant `now` made explicit:
store the delta, advance `last_frame`, count the frame, accumulate the
one-second FPS window, and on window expiry recompute `fps` and reset the
window. -/
def TimeManager.update (t : TimeManager) (now : Rat) : TimeManager :=
  let delta := now - t.last_frame
  let t2 := { t with delta_time := delta, last_frame := now,
                     frame_count := t.frame_count + 1,
                     fps_timer := t.fps_timer + delta,
                     fps_frame_count := t.fps_frame_count + 1 }
  if t2.fps_timer ≥ 1 then
    { t2 with fps := (t2.fps_frame_count : Rat) / t2.fps_timer,
              fps_timer := 0, fps_frame_count := 0 }
  else t2

/-- Frame state machine status of the running orchestrator (`engine.rs`):
`control_flow.exit()` moves to `Terminated`, after which the pump delivers
nothing further. -/
inductive EngineStatus where
  | Running
  | Terminated
deriving DecidableEq, Repr

/-- The core state `Engine::run` threads through its event closure, plus a
count of user-callback invocations (window, renderer, audio and resources
are external collaborators with no bearing on the claims). -/
structure EngineState where
  status : EngineStatus
  time : TimeManager
  input : InputManager
  scene : Scene
  callback_count : Nat

/-- The user game-loop callback: receives the scene (mutably), the input
manager and the delta seconds; returns the continue flag and the mutated
scene. -/
abbrev GameLoop : Type :=
  Scene → InputManager → Rat → Bool × Scene

/-- The platform events the closure in `Engine::run` acts on.  A redraw
carries the instant `Instant::now()` samples inside `TimeManager::update`. -/
inductive PlatformEvent where
  | CloseRequested
  | Resized (w h : Nat)
  | KeyboardInput (key_code : Nat) (state : ElementState)
  | MouseInput (button : Nat) (state : ElementState)
  | CursorMoved (x y : Int)
  | MouseWheel (delta : Int)
  | RedrawRequested (now : Rat)
  | AboutToWait
deriving Repr

/-- One dispatch of the event closure in `Engine::run`.  Once terminated the
pump has exited, so events are no longer processed.  On a redraw: clock
update, user callback; a `false` result exits before the renderer refresh,
title update and input edge reset that otherwise follow. -/
def engineStep (g : GameLoop) (st : EngineState) : PlatformEvent → EngineState :=
  fun ev =>
    match st.status with
    | EngineStatus.Terminated => st
    | EngineStatus.Running =>
      match ev with
      | PlatformEvent.CloseRequested => { st with status := EngineStatus.Terminated }
      | PlatformEvent.Resized _ _ => st
      | PlatformEvent.KeyboardInput k es =>
        { st with input := st.input.handle_keyboard_input k es }
      | PlatformEvent.MouseInput b es =>
        { st with input := st.input.handle_mouse_button b es }
      | PlatformEvent.CursorMoved x y =>
        { st with input := st.input.set_mouse_position (x, y) }
      | PlatformEvent.MouseWheel d =>
        { st with input := st.input.handle_scroll d }
      | PlatformEvent.AboutToWait => st
      | PlatformEvent.RedrawRequested now =>
        let time2 := st.time.update now
        let r := g st.scene st.input time2.delta_time
        let st2 := { st with time := time2, scene := r.2,
                             callback_count := st.callback_count + 1 }
        if r.1 then { st2 with input := st2.input.update }
        else { st2 with status := EngineStatus.Terminated }

/-- Feed a list of platform events through the event closure. -/
def runEvents (g : GameLoop) : EngineState → List PlatformEvent → EngineState
  | st, [] => st
  | st, ev :: evs => runEvents g (engineStep g st ev) evs

/-!  Helper lemmas about the association-list map model. -/

theorem lookup_cons_self {α : Type} (k : Nat) (v : α) (t : List (Nat × α)) :
    List.lookup k ((k, v) :: t) = some v := by
  simp [List.lookup]

theorem lookup_cons_of_ne {α : Type} {k j : Nat} (v : α) (t : List (Nat × α))
    (h : k ≠ j) : List.lookup k ((j, v) :: t) = List.lookup k t := by
  rw [List.lookup, beq_false_of_ne h]

theorem lookup_mapInsert_self {α : Type} (m : List (Nat × α)) (k : Nat) (v : α) :
    List.lookup k (mapInsert m k v) = some v :=
  lookup_cons_self k v _

theorem lookup_mapErase_self {α : Type} (m : List (Nat × α)) (k : Nat) :
    List.lookup k (mapErase m k) = none := by
  induction m with
  | nil => rfl
  | cons a t ih =>
    obtain ⟨a1, a2⟩ := a
    by_cases h : a1 = k
    · rw [show mapErase ((a1, a2) :: t) k = mapErase t k from by
        simp [mapErase, List.filter_cons, h]]
      exact ih
    · rw [show mapErase ((a1, a2) :: t) k = (a1, a2) :: mapErase t k from by
        simp [mapErase, List.filter_cons, h]]
      rw [lookup_cons_of_ne a2 _ (Ne.symm h)]
      exact ih

theorem lookup_mapErase_ne {α : Type} (m : List (Nat × α)) {j k : Nat} (h : j ≠ k) :
    List.lookup j (mapErase m k) = List.lookup j m := by
  induction m with
  | nil => rfl
  | cons a t ih =>
    obtain ⟨a1, a2⟩ := a
    by_cases hk : a1 = k
    · rw [show mapErase ((a1, a2) :: t) k = mapErase t k from by
        simp [mapErase, List.filter_cons, hk]]
      rw [ih, lookup_cons_of_ne a2 t (hk ▸ h)]
    · rw [show mapErase ((a1, a2) :: t) k = (a1, a2) :: mapErase t k from by
        simp [mapErase, List.filter_cons, hk]]
      by_cases hj : j = a1
      · subst hj
        rw [lookup_cons_self, lookup_cons_self]
      · rw [lookup_cons_of_ne a2 _ hj, lookup_cons_of_ne a2 _ hj]
        exact ih

theorem lookup_mapInsert_ne {α : Type} (m : List (Nat × α)) {j k : Nat} (v : α)
    (h : j ≠ k) : List.lookup j (mapInsert m k v) = List.lookup j m := by
  rw [mapInsert, lookup_cons_of_ne v _ h]
  exact lookup_mapErase_ne m h

theorem countKey_mapErase_self {α : Type} (m : List (Nat × α)) (k : Nat) :
    countKey (mapErase m k) k = 0 := by
  induction m with
  | nil => rfl
  | cons a t ih =>
    by_cases h : a.1 = k
    · simp only [mapErase, countKey, List.filter_cons, h] at ih ⊢
      simp [ih]
    · simp only [mapErase, countKey, List.filter_cons] at ih ⊢
      simp [h, ih]

theorem countKey_mapInsert_self {α : Type} (m : List (Nat × α)) (k : Nat) (v : α) :
    countKey (mapInsert m k v) k = 1 := by
  have h0 : countKey (mapErase m k) k = 0 := countKey_mapErase_self m k
  simp only [mapInsert, countKey, List.filter_cons, beq_self_eq_true, List.length_cons]
  simp only [countKey, mapErase] at h0
  simp [h0]

theorem countKey_filter_le {α : Type} (m : List (Nat × α)) (q : Nat × α → Bool) (k : Nat) :
    countKey (m.filter q) k ≤ countKey m k := by
  unfold countKey
  exact ((List.filter_sublist m).filter _).length_le

theorem mem_setInsert_self (l : List Nat) (k : Nat) : k ∈ setInsert l k := by
  unfold setInsert
  by_cases h : l.contains k <;> simp_all

theorem contains_setInsert_self (l : List Nat) (k : Nat) :
    (setInsert l k).contains k = true := by
  simpa using mem_setInsert_self l k

/-!  C1: freshness of allocated entity ids. -/

theorem runOps_ids (ops : List SceneOp) (s : Scene) :
    (runOps ops s).2 = List.range' s.next_entity_id (numCreates ops) := by
  induction ops generalizing s with
  | nil => rfl
  | cons op ops ih =>
    cases op with
    | create n =>
      show (s.create_entity n).1 :: (runOps ops (s.create_entity n).2).2 = _
      rw [ih]
      rfl
    | remove i =>
      show (runOps ops (s.remove_entity i).2).2 = _
      rw [ih]
      rfl

/-- C1: on a fresh Scene, under any interleaving of `create_entity` and
`remove_entity` calls (no `clear`), the ids returned by the successive
`create_entity` calls are strictly increasing and no id is ever returned
twice. -/
theorem create_entity_ids_strictly_increasing (ops : List SceneOp) (nm : String) :
    ((runOps ops (Scene.new nm)).2).Pairwise (· < ·) ∧
    ((runOps ops (Scene.new nm)).2).Nodup := by
  rw [runOps_ids]
  exact ⟨List.pairwise_lt_range' .., List.nodup_range' ..⟩

/-- C7: `clear` discards every entity and resets the id counter to its
initial value, so the next `create_entity` returns the same id as the
first `create_entity` on a fresh Scene, whereas `remove_entity` never
changes the counter. -/
theorem clear_resets_scene (s : Scene) (n n2 : String) :
    (s.clear).entity_count = 0 ∧
    (s.clear).next_entity_id = 0 ∧
    ((s.clear).create_entity n).1 = ((Scene.new n2).create_entity n).1 ∧
    ∀ i : Nat, ((s.remove_entity i).2).next_entity_id = s.next_entity_id :=
  ⟨rfl, rfl, rfl, fun _ => rfl⟩

/-- C8: a release event for a key that is not in the pressed set still
inserts the key into the just-released set, so `key_just_released` reports
`true` for that frame. -/
theorem release_without_press_recorded (m : InputManager) (k : Nat)
    (h : m.key_pressed k = false) :
    (m.handle_keyboard_input k ElementState.Released).key_just_released k = true := by
  simp [InputManager.handle_keyboard_input, InputManager.key_just_released,
        contains_setInsert_self, mem_setInsert_self]

theorem release_without_press_recorded_witness :
    InputManager.new.key_pressed 0 = false ∧
    (InputManager.new.handle_keyboard_input 0 ElementState.Released).key_just_released 0
      = true :=
  ⟨rfl, release_without_press_recorded InputManager.new 0 rfl⟩

/-- C3: after two press events for the same key with no intervening
`update`, `key_just_pressed` is `true`; once `update` runs,
`key_just_pressed` is `false` while `key_pressed` is still `true`. -/
theorem double_press_edge_semantics (m : InputManager) (k : Nat)
    (h : m.key_pressed k = false) :
    ((m.handle_keyboard_input k ElementState.Pressed).handle_keyboard_input k
        ElementState.Pressed).key_just_pressed k = true ∧
    (((m.handle_keyboard_input k ElementState.Pressed).handle_keyboard_input k
        ElementState.Pressed).update).key_just_pressed k = false ∧
    (((m.handle_keyboard_input k ElementState.Pressed).handle_keyboard_input k
        ElementState.Pressed).update).key_pressed k = true := by
  have hmem : k ∉ m.keys_pressed := by
    simpa [InputManager.key_pressed] using h
  refine ⟨?_, ?_, ?_⟩ <;>
    simp [InputManager.handle_keyboard_input, InputManager.update,
          InputManager.key_just_pressed, InputManager.key_pressed, hmem,
          contains_setInsert_self, mem_setInsert_self]

theorem double_press_edge_semantics_witness :
    InputManager.new.key_pressed 7 = false ∧
    (((InputManager.new.handle_keyboard_input 7 ElementState.Pressed).handle_keyboard_input 7
        ElementState.Pressed).key_just_pressed 7 = true ∧
    ((((InputManager.new.handle_keyboard_input 7 ElementState.Pressed)).handle_keyboard_input 7
        ElementState.Pressed).update).key_just_pressed 7 = false ∧
    ((((InputManager.new.handle_keyboard_input 7 ElementState.Pressed)).handle_keyboard_input 7
        ElementState.Pressed).update).key_pressed 7 = true) :=
  ⟨rfl, double_press_edge_semantics InputManager.new 7 rfl⟩

/-!  C2: single-instance-per-type component storage. -/

theorem countKey_map_keyfix {α : Type} (m : List (Nat × α)) (f : Nat × α → Nat × α)
    (hf : ∀ p, (f p).1 = p.1) (k : Nat) :
    countKey (m.map f) k = countKey m k := by
  induction m with
  | nil => rfl
  | cons a t ih =>
    simp only [countKey, List.map_cons, List.filter_cons, hf a] at ih ⊢
    cases h : (a.1 == k) <;> simp [h, ih]

theorem countKey_applyEntityOp_le (e : Entity) (op : EntityOp) (ty : Nat)
    (h : countKey e.components ty ≤ 1) :
    countKey (applyEntityOp e op).components ty ≤ 1 := by
  cases op with
  | set_active b => exact h
  | add_component ty2 v =>
    by_cases hty : ty2 = ty
    · subst hty
      simp [applyEntityOp, Entity.add_component, countKey_mapInsert_self]
    · have heq : countKey (applyEntityOp e (EntityOp.add_component ty2 v)).components ty
          = countKey (mapErase e.components ty2) ty := by
        simp [applyEntityOp, Entity.add_component, mapInsert, mapErase, countKey,
              List.filter_cons, hty]
      rw [heq]
      exact le_trans (countKey_filter_le _ _ _) h
  | remove_component ty2 =>
    exact le_trans (countKey_filter_le _ _ _) h
  | write_component ty2 v =>
    have heq : countKey (applyEntityOp e (EntityOp.write_component ty2 v)).components ty
        = countKey e.components ty := by
      apply countKey_map_keyfix
      intro p
      by_cases hp : p.1 == ty2 && p.2.dynType == ty2 <;> simp [Entity.write_component, hp]
    rw [heq]
    exact h

/-- C2: attaching a second component of the same concrete type replaces the
first — `get_component` returns the second value — and along any sequence
of entity mutations starting from a fresh entity, at most one component of
a given type is ever stored. -/
theorem component_replacement_and_uniqueness (e : Entity) (ty v v2 : Nat)
    (id : Nat) (nm : String) (ops : List EntityOp) :
    ((e.add_component ty v).add_component ty v2).get_component ty = some v2 ∧
    countKey (runEntityOps (Entity.new id nm) ops).components ty ≤ 1 := by
  constructor
  · simp [Entity.add_component, Entity.get_component, lookup_mapInsert_self]
  · have go : ∀ (ops : List EntityOp) (e : Entity), countKey e.components ty ≤ 1 →
        countKey (runEntityOps e ops).components ty ≤ 1 := by
      intro ops
      induction ops with
      | nil => exact fun e h => h
      | cons op ops ih => exact fun e h => ih _ (countKey_applyEntityOp_le e op ty h)
    exact go ops _ (by simp [Entity.new, countKey])

/-!  C5: removal happens at most once and lookups report absence. -/

theorem get_entity_none_stays (id : Nat) (ops : List SceneOp) :
    ∀ s : Scene, id < s.next_entity_id → s.get_entity id = none →
      (runOps ops s).1.get_entity id = none ∧
      id < (runOps ops s).1.next_entity_id := by
  induction ops with
  | nil => exact fun s h1 h2 => ⟨h2, h1⟩
  | cons op ops ih =>
    intro s h1 h2
    cases op with
    | create n =>
      show (runOps ops (s.create_entity n).2).1.get_entity id = none ∧
        id < (runOps ops (s.create_entity n).2).1.next_entity_id
      apply ih
      · exact Nat.lt_succ_of_lt h1
      · show List.lookup id (mapInsert s.entities s.next_entity_id _) = none
        rw [lookup_mapInsert_ne _ _ (Nat.ne_of_lt h1)]
        exact h2
    | remove i =>
      show (runOps ops (s.remove_entity i).2).1.get_entity id = none ∧
        id < (runOps ops (s.remove_entity i).2).1.next_entity_id
      apply ih
      · exact h1
      · show List.lookup id (mapErase s.entities i) = none
        by_cases hi : id = i
        · subst hi
          exact lookup_mapErase_self _ _
        · rw [lookup_mapErase_ne _ hi]
          exact h2

/-- C5: for an id currently present in the Scene (as every id previously
returned by `create_entity` and not yet removed is), `remove_entity`
returns `true`, afterwards `get_entity` returns `none`, and after any
further create/remove operations (no `clear`) both the lookup stays `none`
and a repeated `remove_entity` of the same id returns `false`. -/
theorem remove_entity_true_once (s : Scene) (id : Nat) (ops : List SceneOp)
    (hlt : id < s.next_entity_id)
    (hpresent : (s.get_entity id).isSome = true) :
    (s.remove_entity id).1 = true ∧
    ((s.remove_entity id).2).get_entity id = none ∧
    ((runOps ops (s.remove_entity id).2).1).get_entity id = none ∧
    ((runOps ops (s.remove_entity id).2).1.remove_entity id).1 = false := by
  have h2 : ((s.remove_entity id).2).get_entity id = none := lookup_mapErase_self _ _
  have h3 := get_entity_none_stays id ops (s.remove_entity id).2 hlt h2
  refine ⟨hpresent, h2, h3.1, ?_⟩
  show ((runOps ops (s.remove_entity id).2).1.get_entity id).isSome = false
  rw [h3.1]
  rfl

theorem remove_entity_true_once_witness :
    (0 < ((Scene.new "w").create_entity "A").2.next_entity_id ∧
     ((((Scene.new "w").create_entity "A").2.get_entity 0).isSome = true)) ∧
    ((((Scene.new "w").create_entity "A").2.remove_entity 0).1 = true ∧
     ((((Scene.new "w").create_entity "A").2.remove_entity 0).2).get_entity 0 = none ∧
     ((runOps [SceneOp.create "B"]
        (((Scene.new "w").create_entity "A").2.remove_entity 0).2).1).get_entity 0 = none ∧
     ((runOps [SceneOp.create "B"]
        (((Scene.new "w").create_entity "A").2.remove_entity 0).2).1.remove_entity 0).1
       = false) :=
  ⟨⟨Nat.zero_lt_one, rfl⟩,
   remove_entity_true_once (((Scene.new "w").create_entity "A").2) 0
     [SceneOp.create "B"] Nat.zero_lt_one rfl⟩

/-!  C9: the key-to-entity id correspondence. -/

theorem applyEntityOp_id (e : Entity) (op : EntityOp) :
    (applyEntityOp e op).id = e.id := by
  cases op <;> rfl

theorem sceneInv_applyFullOp (s : Scene) (op : FullOp) (h : sceneInv s) :
    sceneInv (applyFullOp s op) := by
  cases op with
  | create n =>
    intro p hp
    simp only [applyFullOp, Scene.create_entity, mapInsert, List.mem_cons] at hp
    rcases hp with rfl | hp
    · rfl
    · exact h p (List.mem_of_mem_filter hp)
  | remove i =>
    intro p hp
    simp only [applyFullOp, Scene.remove_entity, mapErase] at hp
    exact h p (List.mem_of_mem_filter hp)
  | clear =>
    intro p hp
    simp [applyFullOp, Scene.clear] at hp
  | mutate i op =>
    intro p hp
    simp only [applyFullOp] at hp
    cases hlook : List.lookup i s.entities with
    | none =>
      rw [hlook] at hp
      exact h p hp
    | some e =>
      rw [hlook] at hp
      simp only [List.mem_map] at hp
      obtain ⟨q, hq, hfq⟩ := hp
      by_cases hqi : q.1 = i
      · rw [if_pos (by simp [hqi])] at hfq
        rw [← hfq]
        simpa [applyEntityOp_id] using h q hq
      · rw [if_neg (by simp [hqi])] at hfq
        rw [← hfq]
        exact h q hq

/-- C9: every Scene reachable from a fresh Scene through any sequence of
public operations — `create_entity`, `remove_entity`, `clear` and in-place
entity mutation through `get_entity_mut` — maps each key to an Entity
whose `id` field equals that key. -/
theorem scene_key_id_invariant (ops : List FullOp) (nm : String) :
    sceneInv (runFullOps (Scene.new nm) ops) := by
  have go : ∀ (ops : List FullOp) (s : Scene), sceneInv s →
      sceneInv (runFullOps s ops) := by
    intro ops
    induction ops with
    | nil => exact fun s h => h
    | cons op ops ih => exact fun s h => ih _ (sceneInv_applyFullOp s op h)
  refine go ops _ ?_
  intro p hp
  simp [Scene.new] at hp

theorem scene_key_id_invariant_witness :
    sceneInv (runFullOps (Scene.new "Main")
      [FullOp.create "A", FullOp.mutate 0 (EntityOp.set_active false),
       FullOp.create "B", FullOp.remove 0]) :=
  scene_key_id_invariant
    [FullOp.create "A", FullOp.mutate 0 (EntityOp.set_active false),
     FullOp.create "B", FullOp.remove 0] "Main"

/-- C6: one `update` after a simulated delay of `d` seconds sets
`delta_time` to exactly `d` and increments `frame_count` by exactly one;
when the accumulated window reaches or exceeds one second, `fps` is
recomputed as the frame count of the window divided by the duration of the window and
both the window timer and its frame counter reset to zero, and otherwise
the `fps` estimate is unchanged. -/
theorem clock_update_semantics (t : TimeManager) (d : Rat) (hd : 0 ≤ d) :
    (t.update (t.last_frame + d)).delta_time = d ∧
    (t.update (t.last_frame + d)).frame_count = t.frame_count + 1 ∧
    (1 ≤ t.fps_timer + d →
      (t.update (t.last_frame + d)).fps
          = ((t.fps_frame_count + 1 : Nat) : Rat) / (t.fps_timer + d) ∧
      (t.update (t.last_frame + d)).fps_timer = 0 ∧
      (t.update (t.last_frame + d)).fps_frame_count = 0) ∧
    (¬ 1 ≤ t.fps_timer + d →
      (t.update (t.last_frame + d)).fps = t.fps ∧
      (t.update (t.last_frame + d)).fps_timer = t.fps_timer + d ∧
      (t.update (t.last_frame + d)).fps_frame_count = t.fps_frame_count + 1) := by
  have hdelta : t.last_frame + d - t.last_frame = d := by ring
  unfold TimeManager.update
  simp only [hdelta]
  by_cases hc : (1 : Rat) ≤ t.fps_timer + d
  · simp [hc, ge_iff_le]
  · simp [hc, ge_iff_le]

theorem clock_update_semantics_witness :
    (0 ≤ (2 : Rat)) ∧
    (((TimeManager.new 0).update ((TimeManager.new 0).last_frame + 2)).delta_time = 2 ∧
     ((TimeManager.new 0).update ((TimeManager.new 0).last_frame + 2)).frame_count
        = (TimeManager.new 0).frame_count + 1 ∧
     (1 ≤ (TimeManager.new 0).fps_timer + 2 →
       ((TimeManager.new 0).update ((TimeManager.new 0).last_frame + 2)).fps
           = (((TimeManager.new 0).fps_frame_count + 1 : Nat) : Rat)
               / ((TimeManager.new 0).fps_timer + 2) ∧
       ((TimeManager.new 0).update ((TimeManager.new 0).last_frame + 2)).fps_timer = 0 ∧
       ((TimeManager.new 0).update ((TimeManager.new 0).last_frame + 2)).fps_frame_count
           = 0) ∧
     (¬ 1 ≤ (TimeManager.new 0).fps_timer + 2 →
       ((TimeManager.new 0).update ((TimeManager.new 0).last_frame + 2)).fps
           = (TimeManager.new 0).fps ∧
       ((TimeManager.new 0).update ((TimeManager.new 0).last_frame + 2)).fps_timer
           = (TimeManager.new 0).fps_timer + 2 ∧
       ((TimeManager.new 0).update ((TimeManager.new 0).last_frame + 2)).fps_frame_count
           = (TimeManager.new 0).fps_frame_count + 1)) :=
  ⟨by norm_num, clock_update_semantics (TimeManager.new 0) 2 (by norm_num)⟩

/-!  C4: the frame state machine of the orchestrating event loop. -/

theorem runEvents_terminated (g : GameLoop) (st : EngineState)
    (evs : List PlatformEvent) (h : st.status = EngineStatus.Terminated) :
    runEvents g st evs = st := by
  induction evs with
  | nil => rfl
  | cons ev evs ih =>
    show runEvents g (engineStep g st ev) evs = st
    rw [show engineStep g st ev = st from by simp [engineStep, h]]
    exact ih

/-- C4: on any redraw frame in which the user callback returns `false`, the
frame state machine moves to `Terminated`, and from the terminated state no
later platform event invokes the callback again; a callback returning
`true` on a redraw frame leaves the machine `Running`, so a `false` result of the callback is the sole in-callback termination signal. -/
theorem callback_false_terminates (g : GameLoop) (st : EngineState) (now : Rat)
    (evs : List PlatformEvent)
    (hrun : st.status = EngineStatus.Running)
    (hfalse : (g st.scene st.input ((st.time.update now).delta_time)).1 = false) :
    (engineStep g st (PlatformEvent.RedrawRequested now)).status
        = EngineStatus.Terminated ∧
    (runEvents g (engineStep g st (PlatformEvent.RedrawRequested now)) evs).callback_count
        = (engineStep g st (PlatformEvent.RedrawRequested now)).callback_count ∧
    (∀ (st2 : EngineState) (now2 : Rat), st2.status = EngineStatus.Running →
        (g st2.scene st2.input ((st2.time.update now2).delta_time)).1 = true →
        (engineStep g st2 (PlatformEvent.RedrawRequested now2)).status
          = EngineStatus.Running) := by
  have hstep : (engineStep g st (PlatformEvent.RedrawRequested now)).status
      = EngineStatus.Terminated := by
    simp [engineStep, hrun, hfalse]
  refine ⟨hstep, ?_, ?_⟩
  · rw [runEvents_terminated g _ evs hstep]
  · intro st2 now2 h2 h2t
    simp [engineStep, h2, h2t]

/-- A user callback that, like one reacting to a just-pressed Escape key,
asks the orchestrator to stop. -/
def gStop : GameLoop := fun sc _ _ => (false, sc)

/-- The core state right after the `Uninitialized → Running` transition. -/
def st0 : EngineState :=
  { status := EngineStatus.Running, time := TimeManager.new 0,
    input := InputManager.new, scene := Scene.new "Main", callback_count := 0 }

theorem callback_false_terminates_witness :
    (st0.status = EngineStatus.Running ∧
     (gStop st0.scene st0.input ((st0.time.update 1).delta_time)).1 = false) ∧
    ((engineStep gStop st0 (PlatformEvent.RedrawRequested 1)).status
        = EngineStatus.Terminated ∧
     (runEvents gStop (engineStep gStop st0 (PlatformEvent.RedrawRequested 1))
        [PlatformEvent.RedrawRequested 2]).callback_count
        = (engineStep gStop st0 (PlatformEvent.RedrawRequested 1)).callback_count ∧
     (∀ (st2 : EngineState) (now2 : Rat), st2.status = EngineStatus.Running →
        (gStop st2.scene st2.input ((st2.time.update now2).delta_time)).1 = true →
        (engineStep gStop st2 (PlatformEvent.RedrawRequested now2)).status
          = EngineStatus.Running)) :=
  ⟨⟨rfl, rfl⟩,
   callback_false_terminates gStop st0 1 [PlatformEvent.RedrawRequested 2] rfl rfl⟩

/-- C10: pointer-motion and scroll ingestion overwrite rather than
accumulate: after two handler calls with no intervening `update`, the
stored delta is the second value alone. -/
theorem motion_and_scroll_overwrite (m : InputManager) (d1 d2 : Int × Int) (s1 s2 : Int) :
    ((m.handle_mouse_motion d1).handle_mouse_motion d2).mouse_delta = d2 ∧
    ((m.handle_scroll s1).handle_scroll s2).scroll_delta = s2 :=
  ⟨rfl, rfl⟩

end RGame
